import Mathlib

/-!
Shallow embedding of the videoshare server: the shared schema's data model,
the in-memory entity store (`MemStorage`), and the REST route handlers that
the verified properties concern (GET /api/videos, POST /api/videos,
POST /api/auth/change-password, DELETE /api/videos/:id, GET /api/stream/:id).

Conventions of the embedding:
  * JS `Map` objects become insertion-ordered association lists
    (`List (Nat × _)`); `Map.set` replaces in place, `Map.delete` removes.
  * Timestamps (`Date`) become epoch milliseconds (`Nat`); `Date.now()` is
    an explicit `now` argument to the operations that read the clock.
  * Nullable columns become `Option`; `Partial<...>` update objects wrap
    each field in a further `Option` marking presence.
  * File contents become `List Nat` (byte values) and the uploads disk a
    function `String → Option (List Nat)` from paths to contents.
  * Route handlers are pure functions returning the HTTP status (plus the
    headers/body for the streaming endpoint) together with the state they
    leave behind.
-/

/-- `users` table of shared/schema.ts. -/
structure User where
  id : Nat
  username : String
  password : String
  isAdmin : Bool
deriving Repr, DecidableEq

/-- `videos` table of shared/schema.ts. Nullable columns are `Option`;
`uploadDate` is epoch milliseconds. -/
structure Video where
  id : Nat
  title : String
  description : Option String
  fileName : Option String
  filePath : Option String
  embedUrl : Option String
  isEmbedded : Option Bool
  thumbnailPath : Option String
  category : Option String
  uploaderId : Nat
  views : Nat
  uploadDate : Nat
  duration : Option Nat
deriving Repr, DecidableEq

/-- `categories` table of shared/schema.ts. -/
structure Category where
  id : Nat
  name : String
deriving Repr, DecidableEq

/-- `InsertVideo` (insertVideoSchema = videos minus id, views, uploadDate). -/
structure InsertVideo where
  title : String
  description : Option String := none
  fileName : Option String := none
  filePath : Option String := none
  embedUrl : Option String := none
  isEmbedded : Option Bool := none
  thumbnailPath : Option String := none
  category : Option String := none
  uploaderId : Nat
  duration : Option Nat := none
deriving Repr, DecidableEq

/-- `InsertUser` (insertUserSchema). -/
structure InsertUser where
  username : String
  password : String
  isAdmin : Bool
deriving Repr, DecidableEq

/-- `InsertCategory` (insertCategorySchema). -/
structure InsertCategory where
  name : String
deriving Repr, DecidableEq

/-- `Partial<InsertVideo>`: each field is present (`some`) or absent
(`none`); a present field overrides the stored one on spread. -/
structure VideoUpdates where
  title : Option String := none
  description : Option (Option String) := none
  fileName : Option (Option String) := none
  filePath : Option (Option String) := none
  embedUrl : Option (Option String) := none
  isEmbedded : Option (Option Bool) := none
  thumbnailPath : Option (Option String) := none
  category : Option (Option String) := none
  uploaderId : Option Nat := none
  duration : Option (Option Nat) := none
deriving Repr, DecidableEq

/-- `{ ...existingVideo, ...updates }`: a present update field wins; `id`,
`views` and `uploadDate` cannot appear in `Partial<InsertVideo>`, so they
are kept. -/
def applyUpdates (v : Video) (u : VideoUpdates) : Video :=
  { v with
    title := u.title.getD v.title
    description := u.description.getD v.description
    fileName := u.fileName.getD v.fileName
    filePath := u.filePath.getD v.filePath
    embedUrl := u.embedUrl.getD v.embedUrl
    isEmbedded := u.isEmbedded.getD v.isEmbedded
    thumbnailPath := u.thumbnailPath.getD v.thumbnailPath
    category := u.category.getD v.category
    uploaderId := u.uploaderId.getD v.uploaderId
    duration := u.duration.getD v.duration }

/-- JS `Map.set`: replace in place when the key is present, else append. -/
def mapSet (m : List (Nat × α)) (k : Nat) (v : α) : List (Nat × α) :=
  match m with
  | [] => [(k, v)]
  | (k₁, v₁) :: rest => if k₁ = k then (k, v) :: rest else (k₁, v₁) :: mapSet rest k v

/-- JS `Map.delete`: remove the entry with the key (the first, and under the
store's unique-key discipline the only, occurrence); return whether one was
removed together with the remaining entries. -/
def mapDelete (m : List (Nat × α)) (k : Nat) : Bool × List (Nat × α) :=
  match m with
  | [] => (false, [])
  | (k₁, v₁) :: rest =>
    if k₁ = k then (true, rest)
    else
      let r := mapDelete rest k
      (r.1, (k₁, v₁) :: r.2)

/-- JS `String.prototype.includes` on character lists: does `needle` occur
contiguously inside the list? -/
def listIncludes (needle : List Char) : List Char → Bool
  | [] => needle.isEmpty
  | c :: t => needle.isPrefixOf (c :: t) || listIncludes needle t

/-- `hay.includes(needle)` on strings. -/
def strIncludes (hay needle : String) : Bool :=
  listIncludes needle.toList hay.toList

/-- JS `String.prototype.toLowerCase` (modelled on the character list so
that it computes in the kernel). -/
def jsToLower (s : String) : String :=
  ⟨s.data.map Char.toLower⟩

/-- The comparator `(a, b) => new Date(b.uploadDate).getTime() - new
Date(a.uploadDate).getTime()`: `a` sorts no later than `b` exactly when its
timestamp is no smaller. -/
def dateDescLe (a b : Video) : Bool :=
  b.uploadDate ≤ a.uploadDate

/-- `.sort` with the descending-timestamp comparator (JS `Array.prototype.sort`
is stable; `List.mergeSort` is the stable sort of the library). -/
def sortByDateDesc (vs : List Video) : List Video :=
  vs.mergeSort dateDescLe

/-- The in-memory store `MemStorage` of server/storage.ts: three JS Maps and
three id counters. -/
structure MemStorage where
  users : List (Nat × User)
  videos : List (Nat × Video)
  categories : List (Nat × Category)
  nextUserId : Nat
  nextVideoId : Nat
  nextCategoryId : Nat
deriving Repr, DecidableEq

namespace MemStorage

/-- `getUser(id)`. -/
def getUser (s : MemStorage) (id : Nat) : Option User :=
  s.users.lookup id

/-- `getUserByUsername(username)`: first user (in insertion order) with the
username. -/
def getUserByUsername (s : MemStorage) (username : String) : Option User :=
  (s.users.map Prod.snd).find? (fun u => u.username == username)

/-- `createUser(insertUser)`. -/
def createUser (s : MemStorage) (iu : InsertUser) : User × MemStorage :=
  let id := s.nextUserId
  let u : User := { id := id, username := iu.username, password := iu.password,
                    isAdmin := iu.isAdmin }
  (u, { s with users := mapSet s.users id u, nextUserId := id + 1 })

/-- `getAllUsers()`. -/
def getAllUsers (s : MemStorage) : List User :=
  s.users.map Prod.snd

/-- `updateUserPassword(id, newPassword)`. -/
def updateUserPassword (s : MemStorage) (id : Nat) (newPassword : String) :
    Option User × MemStorage :=
  match s.users.lookup id with
  | none => (none, s)
  | some u =>
    let u₁ := { u with password := newPassword }
    (some u₁, { s with users := mapSet s.users id u₁ })

/-- `getVideo(id)`. -/
def getVideo (s : MemStorage) (id : Nat) : Option Video :=
  s.videos.lookup id

/-- `getAllVideos()`: values in insertion order, sorted by upload date
descending. -/
def getAllVideos (s : MemStorage) : List Video :=
  sortByDateDesc (s.videos.map Prod.snd)

/-- `getVideosByCategory(category)`: the sentinel `"All"` short-circuits to
`getAllVideos`; otherwise filter on category equality, then sort. -/
def getVideosByCategory (s : MemStorage) (category : String) : List Video :=
  if category = "All" then getAllVideos s
  else
    sortByDateDesc ((s.videos.map Prod.snd).filter (fun v => v.category == some category))

/-- `createVideo(insertVideo)`: fresh id, zero views, server-assigned upload
date (`now`). -/
def createVideo (s : MemStorage) (iv : InsertVideo) (now : Nat) : Video × MemStorage :=
  let id := s.nextVideoId
  let v : Video := { id := id, title := iv.title, description := iv.description,
                     fileName := iv.fileName, filePath := iv.filePath,
                     embedUrl := iv.embedUrl, isEmbedded := iv.isEmbedded,
                     thumbnailPath := iv.thumbnailPath, category := iv.category,
                     uploaderId := iv.uploaderId, views := 0, uploadDate := now,
                     duration := iv.duration }
  (v, { s with videos := mapSet s.videos id v, nextVideoId := id + 1 })

/-- `updateVideo(id, updates)`: spread the present update fields over the
stored record. -/
def updateVideo (s : MemStorage) (id : Nat) (u : VideoUpdates) :
    Option Video × MemStorage :=
  match s.videos.lookup id with
  | none => (none, s)
  | some v =>
    let v₁ := applyUpdates v u
    (some v₁, { s with videos := mapSet s.videos id v₁ })

/-- `deleteVideo(id)`. -/
def deleteVideo (s : MemStorage) (id : Nat) : Bool × MemStorage :=
  let r := mapDelete s.videos id
  (r.1, { s with videos := r.2 })

/-- `incrementViews(id)`. -/
def incrementViews (s : MemStorage) (id : Nat) : Option Video × MemStorage :=
  match s.videos.lookup id with
  | none => (none, s)
  | some v =>
    let v₁ := { v with views := v.views + 1 }
    (some v₁, { s with videos := mapSet s.videos id v₁ })

/-- The filter of `searchVideos`: note that a `null` or empty description is
falsy in JS, so the description clause only fires on a nonempty one. -/
def searchMatches (lowerQuery : String) (v : Video) : Bool :=
  strIncludes (jsToLower v.title) lowerQuery ||
    (match v.description with
     | none => false
     | some d => !(d == "") && strIncludes (jsToLower d) lowerQuery)

/-- `searchVideos(query)`: case-insensitive substring match over title and
description, sorted by upload date descending. -/
def searchVideos (s : MemStorage) (query : String) : List Video :=
  sortByDateDesc ((s.videos.map Prod.snd).filter (searchMatches (jsToLower query)))

/-- `getAllCategories()`. -/
def getAllCategories (s : MemStorage) : List Category :=
  s.categories.map Prod.snd

/-- `createCategory(insertCategory)`. -/
def createCategory (s : MemStorage) (ic : InsertCategory) : Category × MemStorage :=
  let id := s.nextCategoryId
  let c : Category := { id := id, name := ic.name }
  (c, { s with categories := mapSet s.categories id c, nextCategoryId := id + 1 })

end MemStorage

/-! ## HTTP layer: request parsing helpers and route handlers -/

/-- `parseInt(s, 10)` restricted to what reaches it here: skip leading
whitespace, read the leading run of decimal digits; no digits is `NaN`
(`none`). -/
def jsParseIntList (cs : List Char) : Option Nat :=
  let t := cs.dropWhile (fun c => c.isWhitespace)
  let ds := t.takeWhile (fun c => c.isDigit)
  if ds.isEmpty then none
  else some (ds.foldl (fun n c => n * 10 + (c.toNat - 48)) 0)

/-- `parseInt` on a string. -/
def jsParseInt (s : String) : Option Nat :=
  jsParseIntList s.toList

/-- `str.replace(pat, "")` for a literal pattern: remove the first
occurrence of `pat`, leave the rest. -/
def removeFirstSub (pat : List Char) : List Char → List Char
  | [] => []
  | c :: rest =>
    if pat.isPrefixOf (c :: rest) then (c :: rest).drop pat.length
    else c :: removeFirstSub pat rest

/-- `str.split(sep)` for a one-character separator: JS returns `[""]` on the
empty string and keeps empty pieces. -/
def splitOnSep (sep : Char) : List Char → List (List Char)
  | [] => [[]]
  | c :: rest =>
    if c = sep then [] :: splitOnSep sep rest
    else
      match splitOnSep sep rest with
      | [] => [[c]]
      | h :: t => (c :: h) :: t

/-- The response of GET /api/stream/:id: status, the headers the handler
sets, and the streamed body bytes. -/
structure StreamResponse where
  status : Nat
  contentRange : Option String := none
  acceptRanges : Option String := none
  contentLength : Option Int := none
  contentType : Option String := none
  body : List Nat := []
deriving Repr, DecidableEq

/-- A disk of uploaded files: path to byte contents when the file exists. -/
def FileSys : Type := String → Option (List Nat)

/-- `fs.existsSync(video.filePath)`: false on a `null` path (existsSync
swallows the error) and on a missing file. -/
def fileExists (fsF : FileSys) (fp : Option String) : Bool :=
  match fp with
  | none => false
  | some p => (fsF p).isSome

/-- GET /api/stream/:id (server/routes.ts): look the video up, 404 when the
record or its backing file is absent; with no (or an empty, hence falsy)
`Range` header answer 200 with the whole file; with a `Range` header strip
`bytes=`, split on `-`, `parseInt` the start, default the end to
`fileSize - 1` when its piece is missing or empty; `fs.createReadStream`
throws `ERR_OUT_OF_RANGE` before any header is written when start or end is
`NaN` or start exceeds end, which the catch turns into a 500; otherwise
answer 206 with the range headers and the inclusive byte slice. -/
def streamVideoRoute (s : MemStorage) (fsF : FileSys) (idStr : String)
    (range : Option String) : StreamResponse :=
  match jsParseInt idStr with
  | none => { status := 404 }
  | some id =>
    match s.getVideo id with
    | none => { status := 404 }
    | some video =>
      match video.filePath with
      | none => { status := 404 }
      | some p =>
        match fsF p with
        | none => { status := 404 }
        | some bytes =>
            let fileSize := bytes.length
            let rangeHdr : Option String :=
              match range with
              | none => none
              | some r => if r = "" then none else some r
            match rangeHdr with
            | none =>
              { status := 200, contentLength := some (fileSize : Int),
                contentType := some "video/mp4", body := bytes }
            | some r =>
              let parts := splitOnSep '-' (removeFirstSub "bytes=".toList r.toList)
              let startO := jsParseIntList (parts.headD [])
              let endO : Option Int :=
                match parts.get? 1 with
                | some e₂ =>
                  if e₂.isEmpty then some ((fileSize : Int) - 1)
                  else (jsParseIntList e₂).map (fun n => (n : Int))
                | none => some ((fileSize : Int) - 1)
              match startO, endO with
              | some st, some en =>
                if (st : Int) > en then { status := 500 }
                else
                  let chunk : Int := en - (st : Int) + 1
                  { status := 206,
                    contentRange := some ("bytes " ++ toString (st : Int) ++ "-" ++
                      toString en ++ "/" ++ toString (fileSize : Int)),
                    acceptRanges := some "bytes",
                    contentLength := some chunk,
                    contentType := some "video/mp4",
                    body := (bytes.drop st).take chunk.toNat }
              | _, _ => { status := 500 }

/-- The body of POST /api/auth/change-password. -/
structure PwChangeBody where
  currentPassword : String
  newPassword : String
  confirmPassword : String
deriving Repr, DecidableEq

/-- `passwordChangeSchema`: current nonempty, new and confirm at least six
characters, new equals confirm. -/
def validPwChange (b : PwChangeBody) : Bool :=
  1 ≤ b.currentPassword.length && 6 ≤ b.newPassword.length &&
    6 ≤ b.confirmPassword.length && b.newPassword == b.confirmPassword

/-- POST /api/auth/change-password: `requireAuth`, then schema validation,
then the handler (404 when the session user vanished from the store, 400 on
a wrong current password, else update the store and the session). Returns
(status, store, session). -/
def changePasswordRoute (s : MemStorage) (session : Option User)
    (b : PwChangeBody) : Nat × MemStorage × Option User :=
  match session with
  | none => (401, s, none)
  | some su =>
    if !validPwChange b then (400, s, some su)
    else
      match s.getUser su.id with
      | none => (404, s, some su)
      | some user =>
        if user.password ≠ b.currentPassword then (400, s, some su)
        else
          let r := s.updateUserPassword su.id b.newPassword
          match r.1 with
          | some updated => (200, r.2, some updated)
          | none => (200, r.2, some su)

/-- DELETE /api/videos/:id: `requireAuth`, 404 on an unknown id, 403 unless
the session user is admin or the uploader, else delete the record and then
unlink the backing file when it exists. Returns (status, store, disk). -/
def deleteVideoRoute (s : MemStorage) (fsF : FileSys) (session : Option User)
    (idStr : String) : Nat × MemStorage × FileSys :=
  match session with
  | none => (401, s, fsF)
  | some su =>
    match jsParseInt idStr with
    | none => (404, s, fsF)
    | some id =>
      match s.getVideo id with
      | none => (404, s, fsF)
      | some video =>
        if !su.isAdmin && video.uploaderId ≠ su.id then (403, s, fsF)
        else
          let s₁ := (s.deleteVideo id).2
          let fsF₁ : FileSys :=
            match video.filePath with
            | some p =>
              if (fsF p).isSome then fun q => if q = p then none else fsF q
              else fsF
            | none => fsF
          (200, s₁, fsF₁)

/-- A multipart file as multer hands it to the route: the client-supplied
name and MIME type, and the server-generated path it was stored under. -/
structure UploadFile where
  originalname : String
  mimetype : String
  path : String
deriving Repr, DecidableEq

/-- The metadata fields of the `videoData` JSON part of POST /api/videos
(everything of `InsertVideo` the handler does not overwrite). -/
structure VideoMeta where
  title : String
  description : Option String := none
  embedUrl : Option String := none
  isEmbedded : Option Bool := none
  thumbnailPath : Option String := none
  category : Option String := none
  duration : Option Nat := none
deriving Repr, DecidableEq

/-- JS `s.startsWith(pre)`: `pre` is a prefix of `s` (modelled on the
character lists so that it computes in the kernel). -/
def strStartsWith (s pre : String) : Bool :=
  pre.toList.isPrefixOf s.toList

/-- multer's `fileFilter`: accept exactly the MIME types starting with
`video/`. -/
def fileFilter (mimetype : String) : Bool :=
  strStartsWith mimetype "video/"

/-- POST /api/videos: `requireAuth`, then multer (a file whose MIME type
fails `fileFilter` is rejected with an error before the handler runs —
Express answers 500 — and nothing is stored), then the handler: 400 when no
file field came, else build the `InsertVideo` from the metadata plus the
file's name and path and the session user as uploader, and create the
record. Returns (status, store). -/
def postVideoRoute (s : MemStorage) (session : Option User)
    (file : Option UploadFile) (meta : VideoMeta) (now : Nat) : Nat × MemStorage :=
  match session with
  | none => (401, s)
  | some su =>
    match file with
    | some f =>
      if !fileFilter f.mimetype then (500, s)
      else
        let iv : InsertVideo :=
          { title := meta.title, description := meta.description,
            fileName := some f.originalname, filePath := some f.path,
            embedUrl := meta.embedUrl, isEmbedded := meta.isEmbedded,
            thumbnailPath := meta.thumbnailPath, category := meta.category,
            uploaderId := su.id, duration := meta.duration }
        (201, (s.createVideo iv now).2)
    | none => (400, s)

/-- GET /api/videos: a nonempty `search` takes the `searchVideos` branch, a
nonempty `category` the `getVideosByCategory` branch, else all videos
(`if (search) ... else if (category) ... else ...`). -/
def getVideosRoute (s : MemStorage) (category search : Option String) : List Video :=
  match search with
  | some q =>
    if q ≠ "" then s.searchVideos q
    else
      match category with
      | some c => if c ≠ "" then s.getVideosByCategory c else s.getAllVideos
      | none => s.getAllVideos
  | none =>
    match category with
    | some c => if c ≠ "" then s.getVideosByCategory c else s.getAllVideos
    | none => s.getAllVideos

/-- Does an Express route pattern segment match a path segment? A `:param`
segment matches anything. -/
def segMatches (pat seg : String) : Bool :=
  strStartsWith pat ":" || pat == seg

/-- Does an Express route pattern match a path, segment by segment? -/
def routeMatches : List String → List String → Bool
  | [], [] => true
  | p :: ps, q :: qs => segMatches p q && routeMatches ps qs
  | _, _ => false

/-- The POST routes server/routes.ts registers on the `/api` router, as
segment patterns. -/
def registeredPostRoutes : List (List String) :=
  [["auth", "login"], ["auth", "logout"], ["auth", "change-password"],
   ["videos"], ["videos", ":id", "views"]]

/-- Does any registered POST route match the path (otherwise Express answers
404)? -/
def somePostRouteMatches (path : List String) : Bool :=
  registeredPostRoutes.any (fun p => routeMatches p path)

/-! ## Association-list (JS Map) lemmas -/

theorem lookup_mapSet_self {α : Type} (m : List (Nat × α)) (k : Nat) (v : α) :
    (mapSet m k v).lookup k = some v := by
  induction m with
  | nil => simp [mapSet, List.lookup]
  | cons hd tl ih =>
    obtain ⟨k₁, v₁⟩ := hd
    by_cases h : k₁ = k
    · subst h
      simp [mapSet, List.lookup]
    · have hb : (k == k₁) = false := by simp [Ne.symm h]
      simp [mapSet, h, List.lookup, hb, ih]

theorem lookup_mapSet_ne {α : Type} (m : List (Nat × α)) {k j : Nat} (v : α)
    (h : j ≠ k) : (mapSet m k v).lookup j = m.lookup j := by
  induction m with
  | nil =>
    have hb : (j == k) = false := by simp [h]
    simp [mapSet, List.lookup, hb]
  | cons hd tl ih =>
    obtain ⟨k₁, v₁⟩ := hd
    by_cases hk : k₁ = k
    · subst hk
      have hb : (j == k₁) = false := by simp [h]
      simp [mapSet, List.lookup, hb]
    · cases hjk : (j == k₁) <;> simp [mapSet, hk, List.lookup, hjk, ih]

theorem lookup_mem_keys {α : Type} {m : List (Nat × α)} {j : Nat} {w : α}
    (h : m.lookup j = some w) : j ∈ m.map Prod.fst := by
  induction m with
  | nil => simp [List.lookup] at h
  | cons hd tl ih =>
    obtain ⟨k₁, v₁⟩ := hd
    by_cases hj : j = k₁
    · simp [hj]
    · have hb : (j == k₁) = false := by simp [hj]
      simp [List.lookup, hb] at h
      simp [ih h]

theorem mapDelete_lookup_ne {α : Type} (m : List (Nat × α)) {k j : Nat}
    (h : j ≠ k) : ((mapDelete m k).2).lookup j = m.lookup j := by
  induction m with
  | nil => rfl
  | cons hd tl ih =>
    obtain ⟨k₁, v₁⟩ := hd
    by_cases hk : k₁ = k
    · subst hk
      have hb : (j == k₁) = false := by simp [h]
      simp [mapDelete, List.lookup, hb]
    · cases hjk : (j == k₁) <;> simp [mapDelete, hk, List.lookup, hjk, ih]

theorem mapDelete_lookup_self {α : Type} (m : List (Nat × α)) (k : Nat)
    (hnd : (m.map Prod.fst).Nodup) : ((mapDelete m k).2).lookup k = none := by
  induction m with
  | nil => rfl
  | cons hd tl ih =>
    obtain ⟨k₁, v₁⟩ := hd
    simp only [List.map_cons, List.nodup_cons] at hnd
    obtain ⟨hk₁, hnd₁⟩ := hnd
    by_cases hk : k₁ = k
    · subst hk
      simp only [mapDelete, if_pos rfl]
      cases hl : tl.lookup k₁ with
      | none => exact hl
      | some w => exact absurd (lookup_mem_keys hl) hk₁
    · have hb : (k == k₁) = false := by simp [Ne.symm hk]
      simp [mapDelete, hk, List.lookup, hb, ih hnd₁]

/-! ## Demonstration fixtures (a concrete reachable store state) -/

def demoUser : User :=
  { id := 1, username := "admin", password := "admin123", isAdmin := true }

def demoUser2 : User :=
  { id := 2, username := "bob", password := "hunter42", isAdmin := false }

def demoV1 : Video :=
  { id := 1, title := "Hello World", description := some "A Demo",
    fileName := some "demo.mp4", filePath := some "/uploads/demo.mp4",
    embedUrl := none, isEmbedded := some false, thumbnailPath := none,
    category := some "Music", uploaderId := 1, views := 5, uploadDate := 100,
    duration := some 60 }

def demoV2 : Video :=
  { id := 2, title := "Zebra Crossing", description := none,
    fileName := some "zebra.mp4", filePath := some "/uploads/zebra.mp4",
    embedUrl := none, isEmbedded := some false, thumbnailPath := none,
    category := some "Sports", uploaderId := 1, views := 2, uploadDate := 300,
    duration := none }

def demoV3 : Video :=
  { id := 3, title := "apple pie", description := some "",
    fileName := none, filePath := none, embedUrl := some "https://example.com/v",
    isEmbedded := some true, thumbnailPath := none, category := none,
    uploaderId := 2, views := 0, uploadDate := 200, duration := none }

def demoStore : MemStorage :=
  { users := [(1, demoUser), (2, demoUser2)],
    videos := [(1, demoV1), (2, demoV2), (3, demoV3)],
    categories := [(1, { id := 1, name := "All" })],
    nextUserId := 3, nextVideoId := 4, nextCategoryId := 2 }

def demoBytes : List Nat :=
  (List.range 1000).map (fun n => n % 256)

def demoFs : FileSys :=
  fun p => if p = "/uploads/demo.mp4" then some demoBytes else none

/-! ## Claim theorems (first group) -/

/-- C3: for every store state, `getVideosByCategory "All"` returns exactly
the same list as `getAllVideos`, in the same order (creation timestamp
descending); the `"All"` argument bypasses the category-equality filter
entirely. -/
theorem getVideosByCategory_all_eq_getAllVideos (s : MemStorage) :
    s.getVideosByCategory "All" = s.getAllVideos := by
  simp [MemStorage.getVideosByCategory]

/-- C10: when both the `search` and the `category` query parameters of GET
/api/videos are present and non-empty, the response is determined solely by
`searchVideos(search)`; the category argument is ignored. -/
theorem getVideos_search_precedes_category (s : MemStorage) (c q : String)
    (hq : q ≠ "") : getVideosRoute s (some c) (some q) = s.searchVideos q := by
  simp [getVideosRoute, hq]

theorem getVideos_search_precedes_category_witness :
    ("zebra" : String) ≠ "" ∧
    getVideosRoute demoStore (some "Music") (some "zebra") =
      demoStore.searchVideos "zebra" :=
  ⟨by decide, getVideos_search_precedes_category demoStore "Music" "zebra" (by decide)⟩

/-- C9: a multipart upload whose file's MIME type does not start with
`video/` is rejected at intake (multer's fileFilter error, surfaced as an
error response, never the 201 of a created record) and the store's video
map is unchanged: no record is created. -/
theorem upload_nonvideo_rejected (s : MemStorage) (u : User) (f : UploadFile)
    (meta : VideoMeta) (now : Nat) (h : fileFilter f.mimetype = false) :
    postVideoRoute s (some u) (some f) meta now = (500, s) ∧
    (postVideoRoute s (some u) (some f) meta now).2.videos = s.videos := by
  have he : postVideoRoute s (some u) (some f) meta now = (500, s) := by
    simp [postVideoRoute, h]
  exact ⟨he, by rw [he]⟩

theorem upload_nonvideo_rejected_witness :
    fileFilter "text/plain" = false ∧
    postVideoRoute demoStore (some demoUser)
      (some { originalname := "x.txt", mimetype := "text/plain",
              path := "/uploads/x" })
      { title := "T" } 500 = (500, demoStore) :=
  ⟨by decide,
   (upload_nonvideo_rejected demoStore demoUser
     { originalname := "x.txt", mimetype := "text/plain", path := "/uploads/x" }
     { title := "T" } 500 (by decide)).1⟩

/-- C7: an authenticated password-change request whose `currentPassword`
does not equal the stored password of the session user answers 400 and
leaves the store (in particular that user's record) unchanged. -/
theorem changePassword_wrong_current (s : MemStorage) (su user : User)
    (b : PwChangeBody) (hu : s.getUser su.id = some user)
    (hp : user.password ≠ b.currentPassword) :
    (changePasswordRoute s (some su) b).1 = 400 ∧
    (changePasswordRoute s (some su) b).2.1 = s := by
  cases hvp : validPwChange b <;>
    simp [changePasswordRoute, hvp, hu, hp]

theorem changePassword_wrong_current_witness :
    demoStore.getUser demoUser.id = some demoUser ∧
    demoUser.password ≠ "wrong-pass" ∧
    (changePasswordRoute demoStore (some demoUser)
      { currentPassword := "wrong-pass", newPassword := "newpass7",
        confirmPassword := "newpass7" }).1 = 400 ∧
    (changePasswordRoute demoStore (some demoUser)
      { currentPassword := "wrong-pass", newPassword := "newpass7",
        confirmPassword := "newpass7" }).2.1 = demoStore :=
  ⟨by decide, by decide,
   (changePassword_wrong_current demoStore demoUser demoUser
     { currentPassword := "wrong-pass", newPassword := "newpass7",
       confirmPassword := "newpass7" } (by decide) (by decide)).1,
   (changePassword_wrong_current demoStore demoUser demoUser
     { currentPassword := "wrong-pass", newPassword := "newpass7",
       confirmPassword := "newpass7" } (by decide) (by decide)).2⟩

/-- C8: a DELETE /api/videos/:id request by an authenticated user who is
neither the video's uploader nor an admin answers 403 and leaves both the
store and the disk exactly as they were. -/
theorem deleteVideo_nonowner_forbidden (s : MemStorage) (fsF : FileSys)
    (su : User) (idStr : String) (id : Nat) (video : Video)
    (hid : jsParseInt idStr = some id) (hv : s.getVideo id = some video)
    (hadmin : su.isAdmin = false) (howner : video.uploaderId ≠ su.id) :
    deleteVideoRoute s fsF (some su) idStr = (403, s, fsF) := by
  simp [deleteVideoRoute, hid, hv, hadmin, howner]

theorem deleteVideo_nonowner_forbidden_witness :
    jsParseInt "1" = some 1 ∧
    demoStore.getVideo 1 = some demoV1 ∧
    demoUser2.isAdmin = false ∧
    demoV1.uploaderId ≠ demoUser2.id ∧
    deleteVideoRoute demoStore demoFs (some demoUser2) "1" =
      (403, demoStore, demoFs) :=
  ⟨by decide, by decide, by decide, by decide,
   deleteVideo_nonowner_forbidden demoStore demoFs demoUser2 "1" 1 demoV1
     (by decide) (by decide) (by decide) (by decide)⟩

/-- C2 (code evaluated at the failing input): the server registers no POST
/api/videos/embed route — the path the client's embed form calls — so such
a request falls through to a 404; and the one ingestion route, POST
/api/videos, answers 400 to any authenticated request without a file field
and leaves the store unchanged, so no embed record (isEmbedded = true,
no stored file) can ever be created. -/
theorem videos_embed_route_unregistered :
    somePostRouteMatches ["videos", "embed"] = false ∧
    ∀ (s : MemStorage) (u : User) (meta : VideoMeta) (now : Nat),
      postVideoRoute s (some u) none meta now = (400, s) :=
  ⟨by decide, fun s u meta now => rfl⟩

/-! ## C5: view counter -/

/-- The store invariant `MemStorage` maintains by construction: video keys
are distinct (JS Map keys are unique) and below the `nextVideoId`
counter. -/
def MemStorage.videosWF (s : MemStorage) : Prop :=
  (s.videos.map Prod.fst).Nodup ∧ ∀ k ∈ s.videos.map Prod.fst, k < s.nextVideoId

instance (s : MemStorage) : Decidable s.videosWF := by
  unfold MemStorage.videosWF
  infer_instance

/-- `incrementViews(id)` applied `n` times in sequence. -/
def iterIncrementViews (s : MemStorage) (id : Nat) : Nat → MemStorage
  | 0 => s
  | n + 1 => ((iterIncrementViews s id n).incrementViews id).2

theorem getVideo_iterIncrementViews (s : MemStorage) (id : Nat) (v : Video)
    (hv : s.getVideo id = some v) (n : Nat) :
    (iterIncrementViews s id n).getVideo id =
      some { v with views := v.views + n } := by
  induction n with
  | zero => exact hv
  | succ n ih =>
    show ((iterIncrementViews s id n).incrementViews id).2.getVideo id = _
    have ih₁ : (iterIncrementViews s id n).videos.lookup id =
        some { v with views := v.views + n } := ih
    simp [MemStorage.incrementViews, MemStorage.getVideo, ih₁, lookup_mapSet_self,
      Nat.add_assoc]

/-- C5: with a video present under `id`, `incrementViews(id)` applied `N`
times raises exactly that video's view counter by exactly `N`; and no store
operation decreases any video's view counter — a video present before and
after `updateVideo`, `deleteVideo`, `incrementViews` or `createVideo` keeps
at least its old count (updates cannot even mention `views`), and the
user/category operations leave the video map untouched. -/
theorem incrementViews_adds_and_views_monotone (s : MemStorage) (id : Nat)
    (v : Video) (N : Nat) (hv : s.getVideo id = some v) (hwf : s.videosWF) :
    (iterIncrementViews s id N).getVideo id =
      some { v with views := v.views + N } ∧
    (∀ (j : Nat) (u : VideoUpdates) (i : Nat) (w w' : Video),
      s.getVideo i = some w → ((s.updateVideo j u).2).getVideo i = some w' →
      w.views ≤ w'.views) ∧
    (∀ (j i : Nat) (w w' : Video),
      s.getVideo i = some w → ((s.deleteVideo j).2).getVideo i = some w' →
      w.views ≤ w'.views) ∧
    (∀ (j i : Nat) (w w' : Video),
      s.getVideo i = some w → ((s.incrementViews j).2).getVideo i = some w' →
      w.views ≤ w'.views) ∧
    (∀ (iv : InsertVideo) (now i : Nat) (w w' : Video),
      s.getVideo i = some w → ((s.createVideo iv now).2).getVideo i = some w' →
      w.views ≤ w'.views) ∧
    (∀ iu : InsertUser, ((s.createUser iu).2).videos = s.videos) ∧
    (∀ (j : Nat) (pw : String),
      ((s.updateUserPassword j pw).2).videos = s.videos) ∧
    (∀ ic : InsertCategory, ((s.createCategory ic).2).videos = s.videos) := by
  obtain ⟨hnd, hlt⟩ := hwf
  refine ⟨getVideo_iterIncrementViews s id v hv N, ?_, ?_, ?_, ?_, ?_, ?_, ?_⟩
  · intro j u i w w' h₁ h₂
    cases hj : s.videos.lookup j with
    | none =>
      have hs : (s.updateVideo j u).2 = s := by
        simp [MemStorage.updateVideo, hj]
      rw [hs] at h₂
      obtain rfl : w = w' := Option.some.inj (h₁.symm.trans h₂)
      exact Nat.le_refl _
    | some vj =>
      have h₂' : (mapSet s.videos j (applyUpdates vj u)).lookup i = some w' := by
        simpa [MemStorage.updateVideo, hj, MemStorage.getVideo] using h₂
      by_cases hij : i = j
      · subst hij
        rw [lookup_mapSet_self] at h₂'
        obtain rfl : applyUpdates vj u = w' := Option.some.inj h₂'
        obtain rfl : w = vj := Option.some.inj (h₁.symm.trans hj)
        exact Nat.le_refl _
      · rw [lookup_mapSet_ne _ _ hij] at h₂'
        obtain rfl : w = w' := Option.some.inj (h₁.symm.trans h₂')
        exact Nat.le_refl _
  · intro j i w w' h₁ h₂
    have h₂' : ((mapDelete s.videos j).2).lookup i = some w' := h₂
    by_cases hij : i = j
    · subst hij
      rw [mapDelete_lookup_self s.videos i hnd] at h₂'
      exact absurd h₂' (by simp)
    · rw [mapDelete_lookup_ne _ hij] at h₂'
      obtain rfl : w = w' := Option.some.inj (h₁.symm.trans h₂')
      exact Nat.le_refl _
  · intro j i w w' h₁ h₂
    cases hj : s.videos.lookup j with
    | none =>
      have hs : (s.incrementViews j).2 = s := by
        simp [MemStorage.incrementViews, hj]
      rw [hs] at h₂
      obtain rfl : w = w' := Option.some.inj (h₁.symm.trans h₂)
      exact Nat.le_refl _
    | some vj =>
      have h₂' : (mapSet s.videos j { vj with views := vj.views + 1 }).lookup i =
          some w' := by
        simpa [MemStorage.incrementViews, hj, MemStorage.getVideo] using h₂
      by_cases hij : i = j
      · subst hij
        rw [lookup_mapSet_self] at h₂'
        obtain rfl : ({ vj with views := vj.views + 1 } : Video) = w' :=
          Option.some.inj h₂'
        obtain rfl : w = vj := Option.some.inj (h₁.symm.trans hj)
        exact Nat.le_succ _
      · rw [lookup_mapSet_ne _ _ hij] at h₂'
        obtain rfl : w = w' := Option.some.inj (h₁.symm.trans h₂')
        exact Nat.le_refl _
  · intro iv now i w w' h₁ h₂
    have hik : i ∈ s.videos.map Prod.fst := lookup_mem_keys h₁
    have hine : i ≠ s.nextVideoId := Nat.ne_of_lt (hlt i hik)
    have h₂' : (mapSet s.videos s.nextVideoId _).lookup i = some w' := h₂
    rw [lookup_mapSet_ne _ _ hine] at h₂'
    obtain rfl : w = w' := Option.some.inj (h₁.symm.trans h₂')
    exact Nat.le_refl _
  · intro iu; rfl
  · intro j pw
    cases hj : s.users.lookup j with
    | none => simp [MemStorage.updateUserPassword, hj]
    | some u => simp [MemStorage.updateUserPassword, hj]
  · intro ic; rfl

theorem incrementViews_adds_and_views_monotone_witness :
    demoStore.getVideo 1 = some demoV1 ∧
    demoStore.videosWF ∧
    (iterIncrementViews demoStore 1 2).getVideo 1 =
      some { demoV1 with views := demoV1.views + 2 } :=
  ⟨by decide, by decide,
   (incrementViews_adds_and_views_monotone demoStore 1 demoV1 2
     (by decide) (by decide)).1⟩

/-! ## C4: search -/

/-- The search predicate as the spec words it: the title or the description
contains the query, case-insensitively. (Stated independently of the code's
`searchMatches` — the two are proved extensionally equal.) -/
def specSearchMatches (q : String) (v : Video) : Bool :=
  strIncludes (jsToLower v.title) (jsToLower q) ||
    (match v.description with
     | none => false
     | some d => strIncludes (jsToLower d) (jsToLower q))

theorem listIncludes_nil (cs : List Char) : listIncludes [] cs = true := by
  cases cs <;> simp [listIncludes, List.isPrefixOf, List.isEmpty]

theorem jsToLower_toList (q : String) :
    (jsToLower q).toList = q.data.map Char.toLower := rfl

/-- The code's filter and the spec's predicate agree on every video: they
differ syntactically only on an empty description (falsy in JS), and an
empty description can only contain the empty query, which the title then
contains as well. -/
theorem searchMatches_eq_spec (q : String) (v : Video) :
    MemStorage.searchMatches (jsToLower q) v = specSearchMatches q v := by
  unfold MemStorage.searchMatches specSearchMatches
  cases hd : v.description with
  | none => rfl
  | some d =>
    by_cases hde : d = ""
    · subst hde
      by_cases hq : q = ""
      · subst hq
        have ht : strIncludes (jsToLower v.title) (jsToLower "") = true :=
          listIncludes_nil _
        simp [ht]
      · have hne : (jsToLower q).toList ≠ [] := by
          rw [jsToLower_toList]
          intro hnil
          exact hq (String.ext (List.map_eq_nil_iff.mp hnil))
        have hspec : strIncludes (jsToLower "") (jsToLower q) = false := by
          show listIncludes (jsToLower q).toList [] = false
          cases hcs : (jsToLower q).toList with
          | nil => exact absurd hcs hne
          | cons c t => rfl
        simp [hspec]
    · have hb : (d == "") = false := by simp [hde]
      simp [hb]

theorem searchVideos_eq_spec_filter (s : MemStorage) (q : String) :
    s.searchVideos q =
      sortByDateDesc ((s.videos.map Prod.snd).filter (specSearchMatches q)) := by
  unfold MemStorage.searchVideos
  congr 1
  exact List.filter_congr (fun v _ => searchMatches_eq_spec q v)

theorem sortByDateDesc_sorted (vs : List Video) :
    List.Sorted (fun a b : Video => b.uploadDate ≤ a.uploadDate)
      (sortByDateDesc vs) := by
  have htrans : ∀ a b c : Video, dateDescLe a b = true → dateDescLe b c = true →
      dateDescLe a c = true := by
    intro a b c hab hbc
    simp only [dateDescLe, decide_eq_true_eq] at *
    omega
  have htotal : ∀ a b : Video, (dateDescLe a b || dateDescLe b a) = true := by
    intro a b
    simp only [dateDescLe, Bool.or_eq_true, decide_eq_true_eq]
    omega
  have h := List.sorted_mergeSort htrans htotal vs
  exact h.imp (fun hab => by simpa [dateDescLe] using hab)

theorem searchVideos_empty (s : MemStorage) :
    s.searchVideos "" = s.getAllVideos := by
  unfold MemStorage.searchVideos MemStorage.getAllVideos
  congr 1
  apply List.filter_eq_self.mpr
  intro v _
  unfold MemStorage.searchMatches
  have ht : strIncludes (jsToLower v.title) (jsToLower "") = true :=
    listIncludes_nil _
  simp [ht]

/-- C4: for every store state and query, `searchVideos(q)` returns exactly
the videos whose title or description contains `q` case-insensitively (the
filtered list), sorted by creation timestamp descending, and the empty
query returns all videos. -/
theorem searchVideos_spec (s : MemStorage) (q : String) :
    s.searchVideos q =
      sortByDateDesc ((s.videos.map Prod.snd).filter (specSearchMatches q)) ∧
    List.Sorted (fun a b : Video => b.uploadDate ≤ a.uploadDate)
      (s.searchVideos q) ∧
    s.searchVideos "" = s.getAllVideos :=
  ⟨searchVideos_eq_spec_filter s q, sortByDateDesc_sorted _, searchVideos_empty s⟩

/-! ## C6: streaming without a Range header -/

/-- C6: on GET /api/stream/:id without a Range header, a video whose record
and backing file exist streams whole: 200, Content-Length the full size,
Content-Type video/mp4, the entire file as body. When the record is absent
(including an unparseable id), or the record has no file path, or the path
has no file, the answer is 404 — whatever the Range header. -/
theorem stream_no_range_spec :
    (∀ (s : MemStorage) (fsF : FileSys) (idStr : String) (id : Nat)
       (video : Video) (p : String) (bytes : List Nat),
      jsParseInt idStr = some id → s.getVideo id = some video →
      video.filePath = some p → fsF p = some bytes →
      streamVideoRoute s fsF idStr none =
        { status := 200, contentLength := some (bytes.length : Int),
          contentType := some "video/mp4", body := bytes }) ∧
    (∀ (s : MemStorage) (fsF : FileSys) (idStr : String) (range : Option String),
      (∀ id, jsParseInt idStr = some id → s.getVideo id = none) →
      streamVideoRoute s fsF idStr range = { status := 404 }) ∧
    (∀ (s : MemStorage) (fsF : FileSys) (idStr : String) (range : Option String)
       (id : Nat) (video : Video),
      jsParseInt idStr = some id → s.getVideo id = some video →
      fileExists fsF video.filePath = false →
      streamVideoRoute s fsF idStr range = { status := 404 }) := by
  refine ⟨?_, ?_, ?_⟩
  · intro s fsF idStr id video p bytes hid hv hfp hfile
    simp [streamVideoRoute, hid, hv, hfp, hfile]
  · intro s fsF idStr range h
    cases hpid : jsParseInt idStr with
    | none => simp [streamVideoRoute, hpid]
    | some id => simp [streamVideoRoute, hpid, h id hpid]
  · intro s fsF idStr range id video hid hv hex
    cases hfp : video.filePath with
    | none => simp [streamVideoRoute, hid, hv, hfp]
    | some p =>
      have hnone : fsF p = none := by
        rw [hfp] at hex
        simp only [fileExists] at hex
        cases hfs : fsF p with
        | none => rfl
        | some bs => rw [hfs] at hex; simp at hex
      simp [streamVideoRoute, hid, hv, hfp, hnone]

/-! ## C1: parsing a Range header -/

/-- The numeric value of a run of decimal digits, as the `parseInt` fold
accumulates it. -/
def digitsVal (ds : List Char) : Nat :=
  ds.foldl (fun n c => n * 10 + (c.toNat - 48)) 0

theorem digit_not_whitespace {c : Char} (h : c.isDigit = true) :
    c.isWhitespace = false := by
  by_contra hw
  rw [Bool.not_eq_false] at hw
  simp [Char.isWhitespace] at hw
  rcases hw with ((rfl | rfl) | rfl) | rfl <;> simp [Char.isDigit] at h

theorem digit_ne_dash {c : Char} (h : c.isDigit = true) : c ≠ '-' := by
  intro he
  subst he
  exact absurd h (by decide)

theorem jsParseIntList_digits (ds : List Char) (hne : ds ≠ [])
    (hd : ∀ c ∈ ds, c.isDigit = true) :
    jsParseIntList ds = some (digitsVal ds) := by
  unfold jsParseIntList digitsVal
  cases ds with
  | nil => exact absurd rfl hne
  | cons c t =>
    have hcw : c.isWhitespace = false := digit_not_whitespace (hd c (by simp))
    have htw : (c :: t).takeWhile (fun x => x.isDigit) = c :: t :=
      List.takeWhile_eq_self_iff.mpr (fun x hx => hd x hx)
    simp [List.dropWhile_cons, hcw, htw]

theorem removeFirstSub_append (pat rest : List Char) (hp : pat ≠ []) :
    removeFirstSub pat (pat ++ rest) = rest := by
  cases pat with
  | nil => exact absurd rfl hp
  | cons c pt =>
    have hpre : (c :: pt).isPrefixOf (c :: (pt ++ rest)) = true :=
      List.isPrefixOf_iff_prefix.mpr (List.prefix_append (c :: pt) rest)
    show removeFirstSub (c :: pt) (c :: (pt ++ rest)) = rest
    unfold removeFirstSub
    rw [if_pos hpre]
    exact List.drop_left (c :: pt) rest

theorem splitOnSep_cons (sep c : Char) (t : List Char) :
    splitOnSep sep (c :: t) =
      if c = sep then [] :: splitOnSep sep t
      else
        match splitOnSep sep t with
        | [] => [[c]]
        | h :: t₁ => (c :: h) :: t₁ := rfl

theorem splitOnSep_append (sep : Char) (a b : List Char)
    (ha : ∀ c ∈ a, c ≠ sep) :
    splitOnSep sep (a ++ sep :: b) = a :: splitOnSep sep b := by
  induction a with
  | nil =>
    show splitOnSep sep (sep :: b) = [] :: splitOnSep sep b
    rw [splitOnSep_cons, if_pos rfl]
  | cons c t ih =>
    have hc : c ≠ sep := ha c (by simp)
    have ht : ∀ x ∈ t, x ≠ sep := fun x hx => ha x (by simp [hx])
    show splitOnSep sep (c :: (t ++ sep :: b)) = (c :: t) :: splitOnSep sep b
    rw [splitOnSep_cons, if_neg hc, ih ht]

theorem splitOnSep_no_sep (sep : Char) (b : List Char)
    (hb : ∀ c ∈ b, c ≠ sep) : splitOnSep sep b = [b] := by
  induction b with
  | nil => rfl
  | cons c t ih =>
    have hc : c ≠ sep := hb c (by simp)
    have ht : ∀ x ∈ t, x ≠ sep := fun x hx => hb x (by simp [hx])
    show splitOnSep sep (c :: t) = [c :: t]
    rw [splitOnSep_cons, if_neg hc, ih ht]

theorem streamVideoRoute_range_explicit (s : MemStorage) (fsF : FileSys)
    (idStr : String) (id : Nat) (video : Video) (p : String) (bytes : List Nat)
    (sd ed : List Char)
    (hid : jsParseInt idStr = some id) (hv : s.getVideo id = some video)
    (hfp : video.filePath = some p) (hfile : fsF p = some bytes)
    (hsdne : sd ≠ []) (hsd : ∀ c ∈ sd, c.isDigit = true)
    (hedne : ed ≠ []) (hed : ∀ c ∈ ed, c.isDigit = true)
    (hle : digitsVal sd ≤ digitsVal ed) :
    streamVideoRoute s fsF idStr
        (some ("bytes=" ++ sd.asString ++ "-" ++ ed.asString)) =
      { status := 206,
        contentRange := some ("bytes " ++ toString ((digitsVal sd : Int)) ++ "-" ++
          toString ((digitsVal ed : Int)) ++ "/" ++ toString ((bytes.length : Int))),
        acceptRanges := some "bytes",
        contentLength := some ((digitsVal ed : Int) - (digitsVal sd : Int) + 1),
        contentType := some "video/mp4",
        body := (bytes.drop (digitsVal sd)).take (digitsVal ed + 1 - digitsVal sd) } := by
  have hrd : ("bytes=" ++ sd.asString ++ "-" ++ ed.asString).toList
      = "bytes=".toList ++ (sd ++ '-' :: ed) := by
    show ("bytes=" ++ sd.asString ++ "-" ++ ed.asString).data
        = "bytes=".data ++ (sd ++ '-' :: ed)
    simp only [String.data_append]
    simp [List.append_assoc]
    rfl
  have hrne : ("bytes=" ++ sd.asString ++ "-" ++ ed.asString) ≠ "" := by
    intro h0
    have h1 := congrArg String.data h0
    rw [show (("" : String).data) = [] from rfl] at h1
    rw [show ("bytes=" ++ sd.asString ++ "-" ++ ed.asString).data
        = "bytes=".toList ++ (sd ++ '-' :: ed) from hrd] at h1
    simp at h1
  have hsplit : splitOnSep '-' (removeFirstSub "bytes=".toList
      ("bytes=" ++ sd.asString ++ "-" ++ ed.asString).toList) = [sd, ed] := by
    rw [hrd]
    rw [removeFirstSub_append _ _ (by decide)]
    rw [splitOnSep_append '-' sd ed (fun c hc => digit_ne_dash (hsd c hc))]
    rw [splitOnSep_no_sep '-' ed (fun c hc => digit_ne_dash (hed c hc))]
  have hedE : ed.isEmpty = false := by
    cases ed with
    | nil => exact absurd rfl hedne
    | cons e et => rfl
  have hps : jsParseIntList sd = some (digitsVal sd) :=
    jsParseIntList_digits sd hsdne hsd
  have hpe : jsParseIntList ed = some (digitsVal ed) :=
    jsParseIntList_digits ed hedne hed
  have hngt : ¬ ((digitsVal sd : Int) > (digitsVal ed : Int)) := by
    omega
  have htn : ((digitsVal ed : Int) - (digitsVal sd : Int) + 1).toNat
      = digitsVal ed + 1 - digitsVal sd := by
    omega
  simp only [streamVideoRoute, hid, hv, hfp, hfile, hrne, if_false, hsplit,
    List.headD_cons, List.get?_cons_succ, List.get?_cons_zero, hedE,
    Bool.false_eq_true, if_neg, hps, hpe, Option.map_some', hngt, htn]
  simp [htn]
  exact hle

theorem streamVideoRoute_range_noend (s : MemStorage) (fsF : FileSys)
    (idStr : String) (id : Nat) (video : Video) (p : String) (bytes : List Nat)
    (sd : List Char)
    (hid : jsParseInt idStr = some id) (hv : s.getVideo id = some video)
    (hfp : video.filePath = some p) (hfile : fsF p = some bytes)
    (hsdne : sd ≠ []) (hsd : ∀ c ∈ sd, c.isDigit = true)
    (hlt : digitsVal sd < bytes.length) :
    streamVideoRoute s fsF idStr (some ("bytes=" ++ sd.asString ++ "-")) =
      { status := 206,
        contentRange := some ("bytes " ++ toString ((digitsVal sd : Int)) ++ "-" ++
          toString ((bytes.length : Int) - 1) ++ "/" ++ toString ((bytes.length : Int))),
        acceptRanges := some "bytes",
        contentLength := some ((bytes.length : Int) - (digitsVal sd : Int)),
        contentType := some "video/mp4",
        body := bytes.drop (digitsVal sd) } := by
  have hrd : ("bytes=" ++ sd.asString ++ "-").toList
      = "bytes=".toList ++ (sd ++ '-' :: []) := by
    show ("bytes=" ++ sd.asString ++ "-").data
        = "bytes=".data ++ (sd ++ '-' :: [])
    simp only [String.data_append]
    simp [List.append_assoc]
    rfl
  have hrne : ("bytes=" ++ sd.asString ++ "-") ≠ "" := by
    intro h0
    have h1 := congrArg String.data h0
    rw [show (("" : String).data) = [] from rfl] at h1
    rw [show ("bytes=" ++ sd.asString ++ "-").data
        = "bytes=".toList ++ (sd ++ '-' :: []) from hrd] at h1
    simp at h1
  have hsplit : splitOnSep '-' (removeFirstSub "bytes=".toList
      ("bytes=" ++ sd.asString ++ "-").toList) = [sd, []] := by
    rw [hrd]
    rw [removeFirstSub_append _ _ (by decide)]
    rw [splitOnSep_append '-' sd [] (fun c hc => digit_ne_dash (hsd c hc))]
    rfl
  have hps : jsParseIntList sd = some (digitsVal sd) :=
    jsParseIntList_digits sd hsdne hsd
  have hngt : ¬ ((digitsVal sd : Int) > (bytes.length : Int) - 1) := by
    omega
  have hch : ((bytes.length : Int) - 1) - (digitsVal sd : Int) + 1
      = (bytes.length : Int) - (digitsVal sd : Int) := by
    omega
  have htn : ((bytes.length : Int) - (digitsVal sd : Int)).toNat
      = bytes.length - digitsVal sd := by
    omega
  have hbody : (bytes.drop (digitsVal sd)).take (bytes.length - digitsVal sd)
      = bytes.drop (digitsVal sd) := by
    apply List.take_of_length_le
    rw [List.length_drop]
  simp only [streamVideoRoute, hid, hv, hfp, hfile, hrne, if_false, hsplit,
    List.headD_cons, List.get?_cons_succ, List.get?_cons_zero,
    List.isEmpty_nil, if_true, hps, Option.map_some', hngt, hch, htn, hbody]

set_option maxRecDepth 16384 in
/-- C1 (amended): on GET /api/stream/:id with video and backing file
present and a Range header `bytes=<start>-<end>` (`<end>` optional,
defaulting to fileSize - 1), provided start does not exceed the (defaulted)
end, the endpoint answers 206 with Content-Range
`bytes <start>-<end>/<fileSize>`, Accept-Ranges `bytes`, Content-Length
`end - start + 1`, Content-Type `video/mp4`, and exactly the inclusive byte
slice [start, end] of the file as body. In particular `bytes=100-199` on
the 1000-byte demo file yields 206, `bytes 100-199/1000` and exactly 100
bytes, and `bytes=100-` yields bytes 100..999 (900 bytes) and
`bytes 100-999/1000`. (When start exceeds end the endpoint answers 500 —
see the counterexample.) -/
theorem stream_range_request_spec :
    (∀ (s : MemStorage) (fsF : FileSys) (idStr : String) (id : Nat)
       (video : Video) (p : String) (bytes : List Nat) (sd ed : List Char),
      jsParseInt idStr = some id → s.getVideo id = some video →
      video.filePath = some p → fsF p = some bytes →
      sd ≠ [] → (∀ c ∈ sd, c.isDigit = true) →
      ed ≠ [] → (∀ c ∈ ed, c.isDigit = true) →
      digitsVal sd ≤ digitsVal ed →
      streamVideoRoute s fsF idStr
          (some ("bytes=" ++ sd.asString ++ "-" ++ ed.asString)) =
        { status := 206,
          contentRange := some ("bytes " ++ toString ((digitsVal sd : Int)) ++
            "-" ++ toString ((digitsVal ed : Int)) ++ "/" ++
            toString ((bytes.length : Int))),
          acceptRanges := some "bytes",
          contentLength := some ((digitsVal ed : Int) - (digitsVal sd : Int) + 1),
          contentType := some "video/mp4",
          body := (bytes.drop (digitsVal sd)).take
            (digitsVal ed + 1 - digitsVal sd) }) ∧
    (∀ (s : MemStorage) (fsF : FileSys) (idStr : String) (id : Nat)
       (video : Video) (p : String) (bytes : List Nat) (sd : List Char),
      jsParseInt idStr = some id → s.getVideo id = some video →
      video.filePath = some p → fsF p = some bytes →
      sd ≠ [] → (∀ c ∈ sd, c.isDigit = true) →
      digitsVal sd < bytes.length →
      streamVideoRoute s fsF idStr (some ("bytes=" ++ sd.asString ++ "-")) =
        { status := 206,
          contentRange := some ("bytes " ++ toString ((digitsVal sd : Int)) ++
            "-" ++ toString ((bytes.length : Int) - 1) ++ "/" ++
            toString ((bytes.length : Int))),
          acceptRanges := some "bytes",
          contentLength := some ((bytes.length : Int) - (digitsVal sd : Int)),
          contentType := some "video/mp4",
          body := bytes.drop (digitsVal sd) }) ∧
    (streamVideoRoute demoStore demoFs "1" (some "bytes=100-199") =
        { status := 206,
          contentRange := some "bytes 100-199/1000",
          acceptRanges := some "bytes",
          contentLength := some 100,
          contentType := some "video/mp4",
          body := (demoBytes.drop 100).take 100 } ∧
      ((demoBytes.drop 100).take 100).length = 100) ∧
    (streamVideoRoute demoStore demoFs "1" (some "bytes=100-") =
        { status := 206,
          contentRange := some "bytes 100-999/1000",
          acceptRanges := some "bytes",
          contentLength := some 900,
          contentType := some "video/mp4",
          body := demoBytes.drop 100 } ∧
      (demoBytes.drop 100).length = 900) := by
  refine ⟨?_, ?_, ⟨?_, ?_⟩, ⟨?_, ?_⟩⟩
  · intro s fsF idStr id video p bytes sd ed hid hv hfp hfile hsdne hsd hedne hed hle
    exact streamVideoRoute_range_explicit s fsF idStr id video p bytes sd ed
      hid hv hfp hfile hsdne hsd hedne hed hle
  · intro s fsF idStr id video p bytes sd hid hv hfp hfile hsdne hsd hlt
    exact streamVideoRoute_range_noend s fsF idStr id video p bytes sd
      hid hv hfp hfile hsdne hsd hlt
  · decide
  · decide
  · decide
  · decide

set_option maxRecDepth 16384 in
/-- C1 counterexample: the claim as frozen asserts a 206 response for every
Range header of the form `bytes=<start>-<end>`, but a numeric range whose
start exceeds its end — here `bytes=500-100` on the demo store's existing
1000-byte file — makes `fs.createReadStream` throw before any header is
written, and the catch answers 500, not 206. -/
theorem stream_range_start_gt_end_counterexample :
    (streamVideoRoute demoStore demoFs "1" (some "bytes=500-100")).status = 500 ∧
    (streamVideoRoute demoStore demoFs "1" (some "bytes=500-100")).status ≠ 206 ∧
    demoStore.getVideo 1 = some demoV1 ∧
    demoV1.filePath = some "/uploads/demo.mp4" ∧
    demoFs "/uploads/demo.mp4" = some demoBytes ∧
    demoBytes.length = 1000 := by
  refine ⟨?_, ?_, ?_, ?_, ?_, ?_⟩ <;> decide
